import Mathlib

/-!
Verification of the TCP proxy core of the `vnt` repository
(`vnt/src/ip_proxy/tcp_proxy.rs`), as a shallow embedding.

Sockets are modelled by scripts: a read script is the list of results
successive `read` calls return, a write script the list of results
successive `write` calls return.  `HashMap` is modelled by an
association list whose lookup returns the first matching entry.
-/

/-- `std::net::Shutdown`. -/
inductive Shutdown where
  | read
  | write
  | both
deriving DecidableEq, Repr

/-- The `io::ErrorKind` values the proxy code distinguishes. -/
inductive EKind where
  | wouldBlock
  | unexpectedEof
  | writeZero
  | other
deriving DecidableEq, Repr

/-- One result of a `read` call on a socket: a data chunk (empty chunk =
EOF, i.e. `Ok(0)`), or an error of some kind. -/
inductive ReadEv where
  | data (chunk : List Nat)
  | rerr (k : EKind)
deriving DecidableEq, Repr

/-- One result of a `write` call on a socket: `Ok(n)` — the socket
accepts `min n |buf|` bytes — or an error of some kind. -/
inductive WriteEv where
  | ok (n : Nat)
  | werr (k : EKind)
deriving DecidableEq, Repr

/-- First-match lookup in an association list (model of `HashMap::get`). -/
def alookup {K V : Type} [DecidableEq K] : List (K × V) → K → Option V
  | [], _ => none
  | (k', v) :: m, k => if k' = k then some v else alookup m k

/-- Insertion (model of `HashMap::insert`): the new binding shadows any
older binding of the same key for `alookup`. -/
def ainsert {K V : Type} [DecidableEq K] (m : List (K × V)) (k : K) (v : V) :
    List (K × V) :=
  (k, v) :: m

/-- Removal (model of `HashMap::remove`): drops every binding of `k`. -/
def aremove {K V : Type} [DecidableEq K] (m : List (K × V)) (k : K) :
    List (K × V) :=
  m.filter (fun p => decide (p.1 ≠ k))

theorem alookup_ainsert_self {K V : Type} [DecidableEq K]
    (m : List (K × V)) (k : K) (v : V) : alookup (ainsert m k v) k = some v := by
  simp [ainsert, alookup]

theorem alookup_ainsert_ne {K V : Type} [DecidableEq K]
    (m : List (K × V)) (k k' : K) (v : V) (h : k ≠ k') :
    alookup (ainsert m k v) k' = alookup m k' := by
  simp [ainsert, alookup, h]

theorem alookup_aremove {K V : Type} [DecidableEq K]
    (m : List (K × V)) (k k' : K) :
    alookup (aremove m k') k = if k = k' then none else alookup m k := by
  induction m with
  | nil => simp [aremove, alookup]
  | cons p m ih =>
    obtain ⟨a, b⟩ := p
    by_cases hak : a = k'
    · subst hak
      by_cases hk : k = a
      · subst hk; simpa [aremove, alookup] using ih
      · have hk' : ¬ a = k := fun h => hk h.symm
        simpa [aremove, alookup, hk, hk'] using ih
    · by_cases hk : a = k
      · subst hk
        simp [aremove, alookup, hak]
      · simpa [aremove, alookup, hak, hk] using ih

theorem isSome_alookup_ainsert {K V : Type} [DecidableEq K]
    (m : List (K × V)) (k k' : K) (v : V)
    (h : (alookup m k').isSome = true) :
    (alookup (ainsert m k v) k').isSome = true := by
  by_cases hk : k = k'
  · subst hk; simp [alookup_ainsert_self]
  · rwa [alookup_ainsert_ne m k k' v hk]

/-- `BUF_LEN` from `tcp_proxy.rs` line 321: `10 * 4096`. -/
def BUF_LEN : Nat := 10 * 4096

/-- `SERVER_VAL`, the token value reserved for the listener. -/
def SERVER_VAL : Nat := 0

/-- `NOTIFY_VAL`, the token value reserved for the wakeup handle. -/
def NOTIFY_VAL : Nat := 1

/-- `and_shutdown_state` from `tcp_proxy.rs` lines 202–214. -/
def and_shutdown_state (s1 : Option Shutdown) (s2 : Shutdown) : Option Shutdown :=
  match s1 with
  | some v =>
    if v = Shutdown.read ∧ s2 = Shutdown.read then some Shutdown.read
    else if v = Shutdown.write ∧ s2 = Shutdown.write then some Shutdown.write
    else some Shutdown.both
  | none => some s2

/-- Result of the inline-write loop inside `readable_handle`
(lines 391–410): leftover bytes of the chunk, remaining write script,
the peer state, the bytes actually delivered, and the error if any. -/
structure WIRes where
  rem : List Nat
  ws : List WriteEv
  st2 : Option Shutdown
  out : List Nat
  err : Option EKind
deriving DecidableEq, Repr

/-- The inner `while !buf.is_empty()` inline-write loop of
`readable_handle` (lines 391–410).  `Ok(end)` with `end == 0` on a
non-empty buffer is the `WriteZero` path; a non-`WouldBlock` write error
is returned; `WouldBlock` breaks.  An exhausted script behaves like
`WouldBlock`. -/
def writeInline : List WriteEv → List Nat → Option Shutdown → WIRes
  | ws, [], st2 => ⟨[], ws, st2, [], none⟩
  | [], buf, st2 => ⟨buf, [], st2, [], none⟩
  | WriteEv.ok n :: ws', buf, st2 =>
    let e := min n buf.length
    if e = 0 then
      ⟨buf, ws', and_shutdown_state st2 Shutdown.write, [], some EKind.writeZero⟩
    else
      let r := writeInline ws' (buf.drop e) st2
      ⟨r.rem, r.ws, r.st2, buf.take e ++ r.out, r.err⟩
  | WriteEv.werr k :: ws', buf, st2 =>
    if k = EKind.wouldBlock then ⟨buf, ws', st2, [], none⟩
    else ⟨buf, ws', and_shutdown_state st2 Shutdown.write, [], some k⟩

/-- Result of `readable_handle`: the final `mid_buf`, remaining write
script, peer state, the bytes delivered inline to `stream2`, the bytes
obtained from `stream1` (instrumentation), the error if any, and
whether the error came from the write side (the paths that clear
`mid_buf`, instrumentation). -/
structure RRes where
  midBuf : List Nat
  ws : List WriteEv
  st2 : Option Shutdown
  out : List Nat
  inBytes : List Nat
  err : Option EKind
  wfail : Bool
deriving DecidableEq, Repr

/-- `readable_handle` from `tcp_proxy.rs` lines 369–427.  The outer
`loop`: stop once `mid_buf.len() >= BUF_LEN`; read a chunk (the read
buffer holds `BUF_LEN` bytes, so callers ensure chunks are at most
`BUF_LEN` long); `Ok(0)` is EOF (`UnexpectedEof`); if `mid_buf` is
empty, write the chunk inline to `stream2` first; leftover bytes are
appended to `mid_buf`.  An exhausted read script behaves like
`WouldBlock`. -/
def readable_handle (rs : List ReadEv) (ws : List WriteEv)
    (midBuf : List Nat) (st2 : Option Shutdown) : RRes :=
  if BUF_LEN ≤ midBuf.length then ⟨midBuf, ws, st2, [], [], none, false⟩
  else
    match rs with
    | [] => ⟨midBuf, ws, st2, [], [], none, false⟩
    | ReadEv.rerr k :: _ =>
      if k = EKind.wouldBlock then ⟨midBuf, ws, st2, [], [], none, false⟩
      else ⟨midBuf, ws, st2, [], [], some k, false⟩
    | ReadEv.data chunk :: rs' =>
      if chunk.isEmpty then ⟨midBuf, ws, st2, [], [], some EKind.unexpectedEof, false⟩
      else if midBuf.isEmpty then
        let w := writeInline ws chunk st2
        match w.err with
        | some k => ⟨[], w.ws, w.st2, w.out, chunk, some k, true⟩
        | none =>
          let r := readable_handle rs' w.ws w.rem w.st2
          ⟨r.midBuf, r.ws, r.st2, w.out ++ r.out, chunk ++ r.inBytes, r.err, r.wfail⟩
      else
        let r := readable_handle rs' ws (midBuf ++ chunk) st2
        ⟨r.midBuf, r.ws, r.st2, r.out, chunk ++ r.inBytes, r.err, r.wfail⟩

/-- Result of `writable_handle`: remaining buffer, remaining write
script, delivered bytes (instrumentation), error if any. -/
structure WDRes where
  buf : List Nat
  ws : List WriteEv
  out : List Nat
  err : Option EKind
deriving DecidableEq, Repr

/-- `writable_handle` from `tcp_proxy.rs` lines 429–444: while the
buffer is non-empty, write it; `split_to(len)` drops the written
prefix; `WouldBlock` breaks, other errors are returned.  An exhausted
write script behaves like `WouldBlock`. -/
def writable_handle : List WriteEv → List Nat → WDRes
  | ws, [] => ⟨[], ws, [], none⟩
  | [], buf => ⟨buf, [], [], none⟩
  | WriteEv.ok n :: ws', buf =>
    let e := min n buf.length
    let r := writable_handle ws' (buf.drop e)
    ⟨r.buf, r.ws, buf.take e ++ r.out, r.err⟩
  | WriteEv.werr k :: ws', buf =>
    if k = EKind.wouldBlock then ⟨buf, ws', [], none⟩
    else ⟨buf, ws', [], some k⟩

/-- `std::net::SocketAddrV4`; the IPv4 address is modelled as a number. -/
structure SockAddrV4 where
  ip : Nat
  port : Nat
deriving DecidableEq, Repr

/-- The fields of an IPv4 datagram carrying TCP that `recv_handle` and
`send_handle` inspect or rewrite.  Modelled from the spec: the `packet`
crate (`IpV4Packet`, `TcpPacket`) is not under `src/`; its accessors
`source_ip`/`destination_ip`/`source_port`/`destination_port`, the
setters, and the payload are modelled as record fields, and the claims
assume a well-formed TCP payload so `TcpPacket::new` succeeds. -/
structure Packet where
  srcIp : Nat
  dstIp : Nat
  ipChecksum : Nat
  srcPort : Nat
  dstPort : Nat
  tcpChecksum : Nat
  payload : List Nat
deriving DecidableEq, Repr

/-- The NAT table: `HashMap<SocketAddrV4, SocketAddrV4>`. -/
def NatMap : Type := List (SockAddrV4 × SockAddrV4)

/-- `TcpProxy::recv_handle` from `tcp_proxy.rs` lines 52–72, for a
well-formed TCP payload.  `port` is the anchor port (`self.port`).
Modelled from the spec: `update_checksum` of the `packet` crate is not
under `src/`; it is modelled by the parameters `tcpCk` (checksum over
the pseudo-header IPs passed to `TcpPacket::new`, the current ports and
the payload) and `ipCk` (header checksum over the current header
addresses). -/
def recv_handle (port : Nat) (tcpCk : Nat → Nat → Nat → Nat → List Nat → Nat)
    (ipCk : Nat → Nat → Nat) (natMap : NatMap) (p : Packet)
    (source destination : Nat) : Packet × NatMap × Bool :=
  let dest_ip := p.dstIp
  let source_port := p.srcPort
  let dest_port := p.dstPort
  let p1 := { p with dstPort := port }
  let p2 := { p1 with tcpChecksum := tcpCk source destination p1.srcPort p1.dstPort p1.payload }
  let p3 := { p2 with dstIp := destination }
  let p4 := { p3 with ipChecksum := ipCk p3.srcIp p3.dstIp }
  let key : SockAddrV4 := ⟨source, source_port⟩
  (p4, ainsert natMap key ⟨dest_ip, dest_port⟩, false)

/-- `TcpProxy::send_handle` from `tcp_proxy.rs` lines 74–90, for a
well-formed TCP payload.  Looks up the NAT table by the packet's
`(destination_ip, tcp destination_port)`; on a hit rewrites the TCP
source port and IPv4 source address to the stored value and recomputes
both checksums (modelled by `tcpCk`/`ipCk` as in `recv_handle`); on a
miss leaves the packet unchanged.  The table itself is only read; the
returned map is the input map. -/
def send_handle (tcpCk : Nat → Nat → Nat → Nat → List Nat → Nat)
    (ipCk : Nat → Nat → Nat) (natMap : NatMap) (p : Packet) : Packet × NatMap :=
  let _src_ip := p.srcIp
  let dest_ip := p.dstIp
  let dest_addr : SockAddrV4 := ⟨dest_ip, p.dstPort⟩
  match alookup natMap dest_addr with
  | some source_addr =>
    let source_ip := source_addr.ip
    let p1 := { p with srcPort := source_addr.port }
    let p2 := { p1 with tcpChecksum := tcpCk source_ip dest_ip p1.srcPort p1.dstPort p1.payload }
    let p3 := { p2 with srcIp := source_ip }
    let p4 := { p3 with ipChecksum := ipCk p3.srcIp p3.dstIp }
    (p4, natMap)
  | none => (p, natMap)

/-- The close condition of the flow event handler, `tcp_proxy.rs` lines
178–195, with both states defined.  `b1e`/`b2e` are `buf1.is_empty()` /
`buf2.is_empty()`.  Rust operator precedence makes the second line
`(state2 == Both && state1 == Write) || buf2.is_empty()`. -/
def close_check (s1 s2 : Shutdown) (b1e b2e : Bool) : Bool :=
  ((s1 = Shutdown.both && (s2 = Shutdown.write || b1e))
      || ((s2 = Shutdown.both && s1 = Shutdown.write) || b2e))
    || (s2 = s1 && (s1 = Shutdown.both || s1 = Shutdown.write || (b1e && b2e)))

/-- The close condition as the spec sentence states it (claim wording):
`state2 == Both && (state1 == Write || buf2 empty)` in the second
disjunct. -/
def close_cond_spec_claim (s1 s2 : Shutdown) (b1e b2e : Bool) : Bool :=
  (s1 = Shutdown.both && (s2 = Shutdown.write || b1e))
    || (s2 = Shutdown.both && (s1 = Shutdown.write || b2e))
    || (s1 = s2 && (s1 = Shutdown.both || s1 = Shutdown.write || (b1e && b2e)))

/-- The close condition as amended: the claim's second disjunct is
replaced, following Rust operator precedence, by
`(state2 == Both && state1 == Write) || buf2 empty`. -/
def close_cond_spec_amended (s1 s2 : Shutdown) (b1e b2e : Bool) : Bool :=
  (s1 = Shutdown.both && (s2 = Shutdown.write || b1e))
    || ((s2 = Shutdown.both && s1 = Shutdown.write) || b2e)
    || (s1 = s2 && (s1 = Shutdown.both || s1 = Shutdown.write || (b1e && b2e)))

/-- `ProxyValue` from `tcp_proxy.rs` lines 309–335 (the streams
themselves are represented by their scripts at event time, so only the
fds, buffers and states are stored). -/
structure ProxyValue where
  src_fd : Nat
  dest_fd : Nat
  src_buf : List Nat
  dest_buf : List Nat
  src_state : Option Shutdown
  dest_state : Option Shutdown
deriving DecidableEq, Repr

/-- `ProxyValue::new`: fresh buffers and undefined states. -/
def ProxyValue.new (src_fd dest_fd : Nat) : ProxyValue :=
  ⟨src_fd, dest_fd, [], [], none, none⟩

/-- The primary map `tcp_map : HashMap<usize, ProxyValue>`. -/
def TcpMap : Type := List (Nat × ProxyValue)

/-- The secondary map `mapping : HashMap<usize, usize>`. -/
def Mapping : Type := List (Nat × Nat)

/-- One iteration of the `accept` loop, `tcp_proxy.rs` lines 224–287:
the accepted connection's `src_fd`, its peer address (`none` for an
IPv6 peer, which is ignored), the result of `tcp_connect` (`none` on
connect error, otherwise the new socket's fd), and the two `register`
outcomes. -/
inductive AcceptEv where
  | conn (srcFd : Nat) (addr : Option SockAddrV4) (connRes : Option Nat)
      (reg1Ok reg2Ok : Bool)
  | aerr (k : EKind)
deriving DecidableEq, Repr

/-- `accept_handle` from `tcp_proxy.rs` lines 216–289.  Reserved fds 0
and 1 are rejected for both the accepted and the connected socket; IPv6
peers, NAT-table misses, connect errors and register errors drop the
flow; otherwise a fresh `ProxyValue` is inserted under `src_fd` and
`dest_fd → src_fd` is added to the secondary map.  A `WouldBlock`
accept error breaks the loop, other accept errors are logged and the
loop continues. -/
def accept_handle : List AcceptEv → NatMap → TcpMap → Mapping → TcpMap × Mapping
  | [], _, tcpMap, mapping => (tcpMap, mapping)
  | AcceptEv.aerr k :: evs, nm, tcpMap, mapping =>
    if k = EKind.wouldBlock then (tcpMap, mapping)
    else accept_handle evs nm tcpMap mapping
  | AcceptEv.conn srcFd addrOpt connRes reg1Ok reg2Ok :: evs, nm, tcpMap, mapping =>
    if srcFd = SERVER_VAL ∨ srcFd = NOTIFY_VAL then
      accept_handle evs nm tcpMap mapping
    else
      match addrOpt with
      | none => accept_handle evs nm tcpMap mapping
      | some addr =>
        match alookup nm addr with
        | none => accept_handle evs nm tcpMap mapping
        | some _dest_addr =>
          match connRes with
          | none => accept_handle evs nm tcpMap mapping
          | some destFd =>
            if destFd = SERVER_VAL ∨ destFd = NOTIFY_VAL then
              accept_handle evs nm tcpMap mapping
            else if reg1Ok = false then accept_handle evs nm tcpMap mapping
            else if reg2Ok = false then accept_handle evs nm tcpMap mapping
            else
              accept_handle evs nm
                (ainsert tcpMap srcFd (ProxyValue.new srcFd destFd))
                (ainsert mapping destFd srcFd)

/-- `close` from `tcp_proxy.rs` lines 446–457: remove the `ProxyValue`
from the primary map and both its fds from the secondary map (the
stream flushes are socket effects outside the model). -/
def close (index : Nat) (tcpMap : TcpMap) (mapping : Mapping) : TcpMap × Mapping :=
  match alookup tcpMap index with
  | some val => (aremove tcpMap index, aremove (aremove mapping val.src_fd) val.dest_fd)
  | none => (tcpMap, mapping)

/-- The buffers and states of one flow after the I/O steps of a flow
event. -/
structure IORes where
  buf1 : List Nat
  buf2 : List Nat
  s1 : Option Shutdown
  s2 : Option Shutdown
deriving DecidableEq, Repr

/-- The I/O steps of the flow event handler, `tcp_proxy.rs` lines
145–177, on the directed view `(buf1, buf2, s1, s2)` produced by
`ProxyValue::as_mut`.  `r1`/`w1` are `stream1`'s read/write scripts,
`r2`/`w2` are `stream2`'s; the socket `shutdown` calls are effects
outside the model.  Note the follow-up read-drain on a previously full
`buf2` passes `state2` for the write-target state and advances `state2`
on error, exactly as the source does (lines 160–165). -/
def flow_io (readable writable readClosed writeClosed : Bool)
    (r1 : List ReadEv) (w2 : List WriteEv) (w1 : List WriteEv) (r2 : List ReadEv)
    (buf1 buf2 : List Nat) (s1 s2 : Option Shutdown) : IORes :=
  let a :=
    if readable then
      let r := readable_handle r1 w2 buf1 s2
      match r.err with
      | some _ => (r.midBuf, and_shutdown_state s1 Shutdown.read, r.st2)
      | none => (r.midBuf, s1, r.st2)
    else (buf1, s1, s2)
  let buf1 := a.1
  let s1 := a.2.1
  let s2 := a.2.2
  let b :=
    if writable then
      let wasFull := BUF_LEN ≤ buf2.length
      let d := writable_handle w1 buf2
      match d.err with
      | some _ => (([] : List Nat), and_shutdown_state s1 Shutdown.write, s2)
      | none =>
        if wasFull then
          let rr := readable_handle r2 d.ws d.buf s2
          match rr.err with
          | some _ => (rr.midBuf, s1, and_shutdown_state rr.st2 Shutdown.read)
          | none => (rr.midBuf, s1, rr.st2)
        else (d.buf, s1, s2)
    else (buf2, s1, s2)
  let buf2 := b.1
  let s1 := b.2.1
  let s2 := b.2.2
  let s1 := if readClosed then and_shutdown_state s1 Shutdown.read else s1
  let s1 := if writeClosed then and_shutdown_state s1 Shutdown.write else s1
  ⟨buf1, buf2, s1, s2⟩

/-- Result of one flow event: the two maps and whether `close` ran
(instrumentation). -/
structure FlowRes where
  tcpMap : TcpMap
  mapping : Mapping
  closed : Bool

/-- The body of the `Token(index)` arm once the owning `ProxyValue`
`v` and its primary key `srcIndex` are found (`tcp_proxy.rs` lines
144–195): direct the record through `as_mut(index)`, run the I/O
steps, write the mutated record back (it lives in the map), and close
when both states are defined and the close condition holds. -/
def flow_event_go (index : Nat) (v : ProxyValue) (srcIndex : Nat)
    (readable writable readClosed writeClosed : Bool)
    (r1 : List ReadEv) (w2 : List WriteEv) (w1 : List WriteEv) (r2 : List ReadEv)
    (tcpMap : TcpMap) (mapping : Mapping) : FlowRes :=
  let dir := index = v.src_fd
  let st :=
    if dir then
      flow_io readable writable readClosed writeClosed r1 w2 w1 r2
        v.src_buf v.dest_buf v.src_state v.dest_state
    else
      flow_io readable writable readClosed writeClosed r1 w2 w1 r2
        v.dest_buf v.src_buf v.dest_state v.src_state
  let v' :=
    if dir then
      { v with src_buf := st.buf1, dest_buf := st.buf2,
               src_state := st.s1, dest_state := st.s2 }
    else
      { v with dest_buf := st.buf1, src_buf := st.buf2,
               dest_state := st.s1, src_state := st.s2 }
  let tcpMap' := ainsert tcpMap srcIndex v'
  match st.s1, st.s2 with
  | some a, some b =>
    if close_check a b st.buf1.isEmpty st.buf2.isEmpty then
      let c := close srcIndex tcpMap' mapping
      ⟨c.1, c.2, true⟩
    else ⟨tcpMap', mapping, false⟩
  | _, _ => ⟨tcpMap', mapping, false⟩

/-- The `Token(index)` arm of the event loop, `tcp_proxy.rs` lines
130–196: find the owning `ProxyValue` directly by `index` or through
the secondary map, then handle the event; unknown tokens are ignored. -/
def flow_event (index : Nat)
    (readable writable readClosed writeClosed : Bool)
    (r1 : List ReadEv) (w2 : List WriteEv) (w1 : List WriteEv) (r2 : List ReadEv)
    (tcpMap : TcpMap) (mapping : Mapping) : FlowRes :=
  match alookup tcpMap index with
  | some v =>
    flow_event_go index v index readable writable readClosed writeClosed
      r1 w2 w1 r2 tcpMap mapping
  | none =>
    match alookup mapping index with
    | some destIndex =>
      match alookup tcpMap destIndex with
      | some v =>
        flow_event_go index v destIndex readable writable readClosed writeClosed
          r1 w2 w1 r2 tcpMap mapping
      | none => ⟨tcpMap, mapping, false⟩
    | none => ⟨tcpMap, mapping, false⟩

theorem writeInline_out_rem : ∀ (ws : List WriteEv) (buf : List Nat) (st2 : Option Shutdown),
    (writeInline ws buf st2).out ++ (writeInline ws buf st2).rem = buf := by
  intro ws
  induction ws with
  | nil => intro buf st2; cases buf <;> simp [writeInline]
  | cons ev ws ih =>
    intro buf st2
    cases buf with
    | nil => simp [writeInline]
    | cons b bs =>
      cases ev with
      | ok n =>
        by_cases hn : n = 0
        · rw [writeInline.eq_def]; simp [hn]
        · rw [writeInline.eq_def]
          simp only [List.length_cons, Nat.min_eq_zero_iff, Nat.succ_ne_zero, or_false, hn,
            ite_false]
          simp only [List.append_assoc]
          rw [ih]
          exact List.take_append_drop _ _
      | werr k =>
        by_cases hk : k = EKind.wouldBlock <;>
          (rw [writeInline.eq_def]; simp [hk])

theorem writable_handle_out_buf : ∀ (ws : List WriteEv) (buf : List Nat),
    (writable_handle ws buf).out ++ (writable_handle ws buf).buf = buf := by
  intro ws
  induction ws with
  | nil => intro buf; cases buf <;> simp [writable_handle]
  | cons ev ws ih =>
    intro buf
    cases buf with
    | nil => simp [writable_handle]
    | cons b bs =>
      cases ev with
      | ok n =>
        rw [writable_handle.eq_def]
        simp only [List.append_assoc]
        rw [ih]
        exact List.take_append_drop _ _
      | werr k =>
        by_cases hk : k = EKind.wouldBlock <;>
          (rw [writable_handle.eq_def]; simp [hk])

theorem BUF_LEN_ne_zero : ¬ (BUF_LEN = 0) := by decide

theorem readable_handle_out_midBuf : ∀ (rs : List ReadEv) (ws : List WriteEv)
    (midBuf : List Nat) (st2 : Option Shutdown),
    (readable_handle rs ws midBuf st2).wfail = false →
    (readable_handle rs ws midBuf st2).out ++ (readable_handle rs ws midBuf st2).midBuf
      = midBuf ++ (readable_handle rs ws midBuf st2).inBytes := by
  intro rs
  induction rs with
  | nil =>
    intro ws midBuf st2 _
    by_cases hfull : BUF_LEN ≤ midBuf.length <;>
      (rw [readable_handle.eq_def]; simp [hfull])
  | cons ev rs ih =>
    intro ws midBuf st2 h
    by_cases hfull : BUF_LEN ≤ midBuf.length
    · rw [readable_handle.eq_def]; simp [hfull]
    · cases ev with
      | rerr k =>
        by_cases hk : k = EKind.wouldBlock <;>
          (rw [readable_handle.eq_def]; simp [hfull, hk])
      | data chunk =>
        by_cases hc : chunk.isEmpty
        · rw [readable_handle.eq_def]; simp [hfull, hc]
        · by_cases hm : midBuf.isEmpty
          · have hmid : midBuf = [] := List.isEmpty_iff.mp hm
            subst hmid
            rcases hwe : (writeInline ws chunk st2).err with _ | k
            · rw [readable_handle.eq_def] at h ⊢
              simp [hfull, hc, hwe, BUF_LEN_ne_zero] at h ⊢
              have key := ih (writeInline ws chunk st2).ws (writeInline ws chunk st2).rem
                (writeInline ws chunk st2).st2 h
              rw [key, ← List.append_assoc, writeInline_out_rem]
            · rw [readable_handle.eq_def] at h
              simp [hfull, hc, hwe, BUF_LEN_ne_zero] at h
          · rw [readable_handle.eq_def] at h ⊢
            simp [hfull, hc, hm] at h ⊢
            have key := ih ws (midBuf ++ chunk) st2 h
            rw [key, List.append_assoc]

theorem writeInline_rem_length_le (ws : List WriteEv) (buf : List Nat)
    (st2 : Option Shutdown) : (writeInline ws buf st2).rem.length ≤ buf.length := by
  have h := congrArg List.length (writeInline_out_rem ws buf st2)
  simp only [List.length_append] at h
  omega

theorem readable_handle_midBuf_le : ∀ (rs : List ReadEv) (ws : List WriteEv)
    (midBuf : List Nat) (st2 : Option Shutdown) (M : Nat),
    (∀ c, ReadEv.data c ∈ rs → c.length ≤ BUF_LEN) →
    2 * BUF_LEN - 1 ≤ M → midBuf.length ≤ M →
    (readable_handle rs ws midBuf st2).midBuf.length ≤ M := by
  intro rs
  induction rs with
  | nil =>
    intro ws midBuf st2 M _ _ hm
    by_cases hfull : BUF_LEN ≤ midBuf.length <;>
      (rw [readable_handle.eq_def]; simpa [hfull] using hm)
  | cons ev rs ih =>
    intro ws midBuf st2 M hb hM hm
    have hb' : ∀ c, ReadEv.data c ∈ rs → c.length ≤ BUF_LEN :=
      fun c hc => hb c (List.mem_cons_of_mem _ hc)
    have hBval : BUF_LEN = 40960 := rfl
    by_cases hfull : BUF_LEN ≤ midBuf.length
    · rw [readable_handle.eq_def]; simpa [hfull] using hm
    · cases ev with
      | rerr k =>
        by_cases hk : k = EKind.wouldBlock <;>
          (rw [readable_handle.eq_def]; simpa [hfull, hk] using hm)
      | data chunk =>
        have hck : chunk.length ≤ BUF_LEN := hb chunk (List.mem_cons_self _ _)
        by_cases hc : chunk.isEmpty
        · rw [readable_handle.eq_def]; simpa [hfull, hc] using hm
        · by_cases hm0 : midBuf.isEmpty
          · have hmid : midBuf = [] := List.isEmpty_iff.mp hm0
            subst hmid
            rcases hwe : (writeInline ws chunk st2).err with _ | k
            · rw [readable_handle.eq_def]
              simp only [hwe, BUF_LEN_ne_zero]
              have hrem : (writeInline ws chunk st2).rem.length ≤ M := by
                have := writeInline_rem_length_le ws chunk st2
                omega
              have := ih (writeInline ws chunk st2).ws (writeInline ws chunk st2).rem
                (writeInline ws chunk st2).st2 M hb' hM hrem
              simpa [hfull, hc, hwe, BUF_LEN_ne_zero] using this
            · rw [readable_handle.eq_def]
              simp [hfull, hc, hwe, BUF_LEN_ne_zero]
          · rw [readable_handle.eq_def]
            have hlen : (midBuf ++ chunk).length ≤ M := by
              simp only [List.length_append]
              omega
            have := ih ws (midBuf ++ chunk) st2 M hb' hM hlen
            simpa [hfull, hc, hm0] using this

theorem writable_handle_ws_length : ∀ (ws : List WriteEv) (buf : List Nat),
    (∀ n, WriteEv.ok n ∈ ws → 0 < n) →
    ws.length ≤ buf.length + ((writable_handle ws buf).ws).length := by
  intro ws
  induction ws with
  | nil => intro buf _; simp
  | cons ev ws ih =>
    intro buf hpos
    have hpos' : ∀ n, WriteEv.ok n ∈ ws → 0 < n :=
      fun n hn => hpos n (List.mem_cons_of_mem _ hn)
    cases buf with
    | nil => rw [writable_handle.eq_def]; simp
    | cons b bs =>
      cases ev with
      | ok n =>
        have hn : 0 < n := hpos n (List.mem_cons_self _ _)
        rw [writable_handle.eq_def]
        have ihh := ih (List.drop (min n (b :: bs).length) (b :: bs)) hpos'
        simp [List.length_drop] at ihh ⊢
        omega
      | werr k =>
        rw [writable_handle.eq_def]
        by_cases hk : k = EKind.wouldBlock <;> (simp [hk]; omega)

/-- C1: per direction of a flow, the bytes delivered to the peer socket
by read-drain's inline fast path followed by write-drain's buffered
writes are, in order, exactly the bytes read from the source socket:
when no write-side failure clears the buffer, the inline output, then
the buffered output, then the bytes still buffered concatenate to the
initial buffer followed by the bytes read — so a peer that drains the
buffer to empty observes exactly the read sequence in order. -/
theorem tcp_relay_byte_preservation (rs : List ReadEv) (ws : List WriteEv)
    (midBuf : List Nat) (st2 : Option Shutdown) (ws2 : List WriteEv)
    (h : (readable_handle rs ws midBuf st2).wfail = false) :
    (readable_handle rs ws midBuf st2).out
        ++ (writable_handle ws2 (readable_handle rs ws midBuf st2).midBuf).out
        ++ (writable_handle ws2 (readable_handle rs ws midBuf st2).midBuf).buf
      = midBuf ++ (readable_handle rs ws midBuf st2).inBytes := by
  rw [List.append_assoc, writable_handle_out_buf,
    readable_handle_out_midBuf rs ws midBuf st2 h]

theorem tcp_relay_byte_preservation_witness :
    (readable_handle [ReadEv.data [1, 2]] [WriteEv.ok 1] [] none).wfail = false ∧
    (readable_handle [ReadEv.data [1, 2]] [WriteEv.ok 1] [] none).out
        ++ (writable_handle [WriteEv.ok 5]
              (readable_handle [ReadEv.data [1, 2]] [WriteEv.ok 1] [] none).midBuf).out
        ++ (writable_handle [WriteEv.ok 5]
              (readable_handle [ReadEv.data [1, 2]] [WriteEv.ok 1] [] none).midBuf).buf
      = [] ++ (readable_handle [ReadEv.data [1, 2]] [WriteEv.ok 1] [] none).inBytes :=
  ⟨by decide,
    tcp_relay_byte_preservation [ReadEv.data [1, 2]] [WriteEv.ok 1] [] none
      [WriteEv.ok 5] (by decide)⟩

/-- C9: for every call to read-drain with read chunks of at most
`BUF_LEN` bytes (the read buffer's size), a direction buffer strictly
below `2 * BUF_LEN` stays strictly below `2 * BUF_LEN`: bytes are
appended only when the length was below `BUF_LEN` at the top of a loop
iteration, and each read appends at most `BUF_LEN` bytes. -/
theorem readable_buf_lt_two_buflen (rs : List ReadEv) (ws : List WriteEv)
    (midBuf : List Nat) (st2 : Option Shutdown)
    (hchunks : ∀ c, ReadEv.data c ∈ rs → c.length ≤ BUF_LEN)
    (hinit : midBuf.length < 2 * BUF_LEN) :
    (readable_handle rs ws midBuf st2).midBuf.length < 2 * BUF_LEN := by
  have hBval : BUF_LEN = 40960 := rfl
  have h := readable_handle_midBuf_le rs ws midBuf st2 (2 * BUF_LEN - 1) hchunks
    (by omega) (by omega)
  omega

theorem readable_buf_lt_two_buflen_witness :
    (∀ c, ReadEv.data c ∈ [ReadEv.data [7]] → c.length ≤ BUF_LEN) ∧
    ([] : List Nat).length < 2 * BUF_LEN ∧
    (readable_handle [ReadEv.data [7]] [] [] none).midBuf.length < 2 * BUF_LEN :=
  ⟨by intro c hc; simp at hc; subst hc; decide, by decide,
    readable_buf_lt_two_buflen [ReadEv.data [7]] [] [] none
      (by intro c hc; simp at hc; subst hc; decide) (by decide)⟩

/-- C10: write-drain performs at most `|buf|` writes before its loop
exits, under the precondition that every successful write returns a
positive byte count — each such iteration strictly decreases the buffer
length, and the loop also exits on empty buffer, would-block, or any
other error; so the number of write events consumed from the script is
at most the initial buffer length. -/
theorem writable_handle_terminates (ws : List WriteEv) (buf : List Nat)
    (hpos : ∀ n, WriteEv.ok n ∈ ws → 0 < n) :
    ws.length ≤ buf.length + ((writable_handle ws buf).ws).length :=
  writable_handle_ws_length ws buf hpos

theorem writable_handle_terminates_witness :
    (∀ n, WriteEv.ok n ∈ [WriteEv.ok 1] → 0 < n) ∧
    [WriteEv.ok 1].length ≤ [5].length + ((writable_handle [WriteEv.ok 1] [5]).ws).length :=
  ⟨by intro n hn; simp at hn; subst hn; decide,
    writable_handle_terminates [WriteEv.ok 1] [5]
      (by intro n hn; simp at hn; subst hn; decide)⟩

theorem buffer_cap_cx_general (l : List Nat) (hlen : l.length = 40959) :
    BUF_LEN < (readable_handle [ReadEv.data [0], ReadEv.data (0 :: l)]
        [WriteEv.werr EKind.wouldBlock] [] none).midBuf.length := by
  have h1 : writeInline [WriteEv.werr EKind.wouldBlock] [0] none
      = ⟨[0], [], none, [], none⟩ := by decide
  have h2 : (readable_handle [] ([] : List WriteEv) (0 :: 0 :: l) none).midBuf
      = 0 :: 0 :: l := by
    rw [readable_handle.eq_def]
    simp
  have h3 : (readable_handle [ReadEv.data (0 :: l)] ([] : List WriteEv) [0] none).midBuf
      = 0 :: 0 :: l := by
    rw [readable_handle.eq_def]
    have hfull : ¬ BUF_LEN ≤ (1 : Nat) := by decide
    simp [hfull, h2]
  rw [readable_handle.eq_def]
  have hB : BUF_LEN = 40960 := rfl
  simp [h1, BUF_LEN_ne_zero, h3, hlen]
  omega

/-- C3 counterexample: read-drain can make a buffer exceed `BUF_LEN`.
Starting from an empty buffer, a 1-byte read whose inline write
would-blocks leaves 1 byte buffered; a following full `BUF_LEN`-byte
read is appended because the length check at the top of the loop sees
`1 < BUF_LEN`; the buffer ends at `BUF_LEN + 1 = 40961` bytes.  Both
chunks respect the `BUF_LEN`-sized read buffer. -/
theorem buffer_cap_counterexample :
    (∀ c, ReadEv.data c ∈
        [ReadEv.data [0], ReadEv.data (0 :: List.replicate 40959 0)] →
        c.length ≤ BUF_LEN) ∧
    BUF_LEN <
      (readable_handle [ReadEv.data [0], ReadEv.data (0 :: List.replicate 40959 0)]
        [WriteEv.werr EKind.wouldBlock] [] none).midBuf.length := by
  constructor
  · intro c hc
    rcases List.mem_cons.mp hc with h | h
    · injection h with h
      subst h
      decide
    · rcases List.mem_cons.mp h with h | h
      · injection h with h
        subst h
        rw [List.length_cons, List.length_replicate]
        decide
      · exact absurd h (List.not_mem_nil _)
  · exact buffer_cap_cx_general (List.replicate 40959 0) (List.length_replicate _ _)

/-- C3 (amended): a direction buffer never exceeds `2 * BUF_LEN - 1 =
81919` bytes: read-drain appends bytes only when the buffer length was
strictly below `BUF_LEN` at the top of the loop iteration, and each
read appends at most `BUF_LEN` bytes (the read buffer's size), so a
buffer within the bound stays within the bound. -/
theorem buffer_cap_amended (rs : List ReadEv) (ws : List WriteEv)
    (midBuf : List Nat) (st2 : Option Shutdown)
    (hchunks : ∀ c, ReadEv.data c ∈ rs → c.length ≤ BUF_LEN)
    (hinit : midBuf.length ≤ 2 * BUF_LEN - 1) :
    (readable_handle rs ws midBuf st2).midBuf.length ≤ 2 * BUF_LEN - 1 :=
  readable_handle_midBuf_le rs ws midBuf st2 (2 * BUF_LEN - 1) hchunks (le_refl _) hinit

theorem buffer_cap_amended_witness :
    (∀ c, ReadEv.data c ∈ [ReadEv.data [3, 4]] → c.length ≤ BUF_LEN) ∧
    ([] : List Nat).length ≤ 2 * BUF_LEN - 1 ∧
    (readable_handle [ReadEv.data [3, 4]] [] [] none).midBuf.length ≤ 2 * BUF_LEN - 1 :=
  ⟨by intro c hc; simp at hc; subst hc; decide, by decide,
    buffer_cap_amended [ReadEv.data [3, 4]] [] [] none
      (by intro c hc; simp at hc; subst hc; decide) (by decide)⟩

/-- C5: for every IPv4 datagram with a well-formed TCP payload,
`recv_handle` overwrites the TCP destination port with the anchor port,
recomputes the TCP checksum over the new pseudo-header and ports,
overwrites the IPv4 destination address with `destination`, recomputes
the IPv4 header checksum, inserts the NAT entry keyed by
`(source, original source port)` with value `(original destination IP,
original destination port)`, and returns `false`; all other packet
fields are untouched. -/
theorem recv_handle_rewrites (port : Nat)
    (tcpCk : Nat → Nat → Nat → Nat → List Nat → Nat) (ipCk : Nat → Nat → Nat)
    (m : NatMap) (p : Packet) (source destination : Nat) :
    recv_handle port tcpCk ipCk m p source destination =
      ({ p with dstPort := port,
                tcpChecksum := tcpCk source destination p.srcPort port p.payload,
                dstIp := destination,
                ipChecksum := ipCk p.srcIp destination },
       ainsert m ⟨source, p.srcPort⟩ ⟨p.dstIp, p.dstPort⟩,
       false) := rfl

/-- C2 counterexample: after `recv_handle` inserts
`(src, sport) = (1, 10) → (dst, dport) = (2, 443)`, a `send_handle` of
a packet with source `dst:dport = 2:443` and destination `7:7`
("anything") leaves the source unchanged at `2:443` — the code looks
the NAT table up by the packet's destination, not its source, so the
produced source is not `src:sport = 1:10`. -/
theorem nat_roundtrip_counterexample :
    ¬ (((send_handle (fun _ _ _ _ _ => 0) (fun _ _ => 0)
            ((recv_handle 7 (fun _ _ _ _ _ => 0) (fun _ _ => 0) []
                ⟨1, 2, 0, 10, 443, 0, []⟩ 1 9).2.1)
            ⟨2, 7, 0, 443, 7, 0, []⟩).1.srcIp = 1) ∧
        ((send_handle (fun _ _ _ _ _ => 0) (fun _ _ => 0)
            ((recv_handle 7 (fun _ _ _ _ _ => 0) (fun _ _ => 0) []
                ⟨1, 2, 0, 10, 443, 0, []⟩ 1 9).2.1)
            ⟨2, 7, 0, 443, 7, 0, []⟩).1.srcPort = 10)) := by decide

/-- C2 (amended): for every NAT entry `(src, sport) → (dst, dport)`
inserted by `recv_handle`, a subsequent `send_handle` of a packet whose
destination is `src:sport` produces a packet whose source is
`dst:dport`. -/
theorem nat_roundtrip_amended (port : Nat)
    (tcpCk : Nat → Nat → Nat → Nat → List Nat → Nat) (ipCk : Nat → Nat → Nat)
    (m : NatMap) (p q : Packet) (source destination : Nat)
    (h1 : q.dstIp = source) (h2 : q.dstPort = p.srcPort) :
    (send_handle tcpCk ipCk
        (recv_handle port tcpCk ipCk m p source destination).2.1 q).1.srcIp = p.dstIp ∧
    (send_handle tcpCk ipCk
        (recv_handle port tcpCk ipCk m p source destination).2.1 q).1.srcPort = p.dstPort := by
  have hm : (recv_handle port tcpCk ipCk m p source destination).2.1
      = ainsert m ⟨source, p.srcPort⟩ ⟨p.dstIp, p.dstPort⟩ := rfl
  rw [hm]
  have hd : (⟨q.dstIp, q.dstPort⟩ : SockAddrV4) = ⟨source, p.srcPort⟩ := by rw [h1, h2]
  simp [send_handle, hd, alookup_ainsert_self]

theorem nat_roundtrip_amended_witness :
    ((⟨5, 1, 0, 6, 10, 0, []⟩ : Packet).dstIp = 1) ∧
    ((⟨5, 1, 0, 6, 10, 0, []⟩ : Packet).dstPort = (⟨1, 2, 0, 10, 443, 0, []⟩ : Packet).srcPort) ∧
    ((send_handle (fun _ _ _ _ _ => 0) (fun _ _ => 0)
        (recv_handle 7 (fun _ _ _ _ _ => 0) (fun _ _ => 0) []
            ⟨1, 2, 0, 10, 443, 0, []⟩ 1 9).2.1
        ⟨5, 1, 0, 6, 10, 0, []⟩).1.srcIp = (⟨1, 2, 0, 10, 443, 0, []⟩ : Packet).dstIp ∧
     (send_handle (fun _ _ _ _ _ => 0) (fun _ _ => 0)
        (recv_handle 7 (fun _ _ _ _ _ => 0) (fun _ _ => 0) []
            ⟨1, 2, 0, 10, 443, 0, []⟩ 1 9).2.1
        ⟨5, 1, 0, 6, 10, 0, []⟩).1.srcPort = (⟨1, 2, 0, 10, 443, 0, []⟩ : Packet).dstPort) :=
  ⟨rfl, rfl,
    nat_roundtrip_amended 7 (fun _ _ _ _ _ => 0) (fun _ _ => 0) []
      ⟨1, 2, 0, 10, 443, 0, []⟩ ⟨5, 1, 0, 6, 10, 0, []⟩ 1 9 rfl rfl⟩

/-- C6: when the pair `(destination IP, TCP destination port)` of an
outbound packet is not a key of the NAT table, `send_handle` leaves the
packet entirely unchanged and the table unchanged; and on every input
`send_handle` returns the table it was given — it never inserts. -/
theorem send_handle_miss_frame
    (tcpCk : Nat → Nat → Nat → Nat → List Nat → Nat) (ipCk : Nat → Nat → Nat)
    (m : NatMap) (p : Packet) (m' : NatMap) (p' : Packet)
    (h : alookup m ⟨p.dstIp, p.dstPort⟩ = none) :
    send_handle tcpCk ipCk m p = (p, m) ∧
    (send_handle tcpCk ipCk m' p').2 = m' := by
  constructor
  · simp [send_handle, h]
  · rcases halo : alookup m' ⟨p'.dstIp, p'.dstPort⟩ with _ | v <;>
      simp [send_handle, halo]

theorem send_handle_miss_frame_witness :
    alookup ([] : NatMap) ⟨(2 : Nat), (4 : Nat)⟩ = none ∧
    (send_handle (fun _ _ _ _ _ => 0) (fun _ _ => 0) [] ⟨1, 2, 0, 3, 4, 0, []⟩
        = (⟨1, 2, 0, 3, 4, 0, []⟩, []) ∧
      (send_handle (fun _ _ _ _ _ => 0) (fun _ _ => 0)
        [(⟨1, 10⟩, ⟨2, 443⟩)] ⟨9, 1, 0, 8, 10, 0, []⟩).2 = [(⟨1, 10⟩, ⟨2, 443⟩)]) :=
  ⟨rfl,
    send_handle_miss_frame (fun _ _ _ _ _ => 0) (fun _ _ => 0) []
      ⟨1, 2, 0, 3, 4, 0, []⟩ [(⟨1, 10⟩, ⟨2, 443⟩)] ⟨9, 1, 0, 8, 10, 0, []⟩ rfl⟩

/-- C4 counterexample: with `state1 = state2 = Read`, `buf1` non-empty
and `buf2` empty, the code's condition closes the flow — by Rust
operator precedence the `|| buf2.is_empty()` disjunct stands on its own
— while the claim's condition does not close it. -/
theorem close_cond_counterexample :
    close_check Shutdown.read Shutdown.read false true = true ∧
    close_cond_spec_claim Shutdown.read Shutdown.read false true = false := by decide

/-- C4 (amended): once both states are defined, the flow is closed
exactly when one of these holds: `state1 == Both` and (`state2 == Write`
or `buf1` empty); or `state2 == Both` and `state1 == Write`; or `buf2`
is empty; or `state1 == state2` and (`state1 ∈ {Both, Write}` or both
buffers empty). -/
theorem close_cond_amended_correct :
    ∀ (s1 s2 : Shutdown) (b1e b2e : Bool),
      close_check s1 s2 b1e b2e = close_cond_spec_amended s1 s2 b1e b2e := by
  intro s1 s2 b1e b2e
  cases s1 <;> cases s2 <;> cases b1e <;> cases b2e <;> rfl

/-- C7: the accept loop rejects any accepted or connected socket whose
fd is a reserved token value (0 or 1) before any map insertion, so if
the primary map and the secondary mapping contain no key 0 or 1, they
still contain none after `accept_handle`. -/
theorem reserved_fd_safety : ∀ (evs : List AcceptEv) (nm : NatMap)
    (tcpMap : TcpMap) (mapping : Mapping),
    alookup tcpMap SERVER_VAL = none → alookup tcpMap NOTIFY_VAL = none →
    alookup mapping SERVER_VAL = none → alookup mapping NOTIFY_VAL = none →
    alookup (accept_handle evs nm tcpMap mapping).1 SERVER_VAL = none ∧
    alookup (accept_handle evs nm tcpMap mapping).1 NOTIFY_VAL = none ∧
    alookup (accept_handle evs nm tcpMap mapping).2 SERVER_VAL = none ∧
    alookup (accept_handle evs nm tcpMap mapping).2 NOTIFY_VAL = none := by
  intro evs
  induction evs with
  | nil =>
    intro nm tm mp h0 h1 h2 h3
    exact ⟨h0, h1, h2, h3⟩
  | cons ev evs ih =>
    intro nm tm mp h0 h1 h2 h3
    cases ev with
    | aerr k =>
      by_cases hk : k = EKind.wouldBlock
      · simp only [accept_handle, hk, ite_true]
        exact ⟨h0, h1, h2, h3⟩
      · simp only [accept_handle, hk, ite_false]
        exact ih nm tm mp h0 h1 h2 h3
    | conn srcFd addrOpt connRes r1 r2 =>
      simp only [accept_handle]
      by_cases hs : srcFd = SERVER_VAL ∨ srcFd = NOTIFY_VAL
      · rw [if_pos hs]
        exact ih nm tm mp h0 h1 h2 h3
      · rw [if_neg hs]
        cases addrOpt with
        | none => exact ih nm tm mp h0 h1 h2 h3
        | some addr =>
          rcases hnm : alookup nm addr with _ | da
          · simp only [hnm]
            exact ih nm tm mp h0 h1 h2 h3
          · simp only [hnm]
            cases connRes with
            | none => exact ih nm tm mp h0 h1 h2 h3
            | some destFd =>
              dsimp only
              by_cases hd : destFd = SERVER_VAL ∨ destFd = NOTIFY_VAL
              · rw [if_pos hd]
                exact ih nm tm mp h0 h1 h2 h3
              · rw [if_neg hd]
                by_cases hr1 : r1 = false
                · rw [if_pos hr1]
                  exact ih nm tm mp h0 h1 h2 h3
                · rw [if_neg hr1]
                  by_cases hr2 : r2 = false
                  · rw [if_pos hr2]
                    exact ih nm tm mp h0 h1 h2 h3
                  · rw [if_neg hr2]
                    refine ih nm _ _ ?_ ?_ ?_ ?_
                    · rw [alookup_ainsert_ne tm srcFd SERVER_VAL _
                        (fun hh => hs (Or.inl hh))]
                      exact h0
                    · rw [alookup_ainsert_ne tm srcFd NOTIFY_VAL _
                        (fun hh => hs (Or.inr hh))]
                      exact h1
                    · rw [alookup_ainsert_ne mp destFd SERVER_VAL _
                        (fun hh => hd (Or.inl hh))]
                      exact h2
                    · rw [alookup_ainsert_ne mp destFd NOTIFY_VAL _
                        (fun hh => hd (Or.inr hh))]
                      exact h3

theorem reserved_fd_safety_witness :
    alookup ([] : TcpMap) SERVER_VAL = none ∧
    alookup ([] : TcpMap) NOTIFY_VAL = none ∧
    alookup ([] : Mapping) SERVER_VAL = none ∧
    alookup ([] : Mapping) NOTIFY_VAL = none ∧
    (alookup (accept_handle
        [AcceptEv.conn 5 (some ⟨1, 2⟩) (some 6) true true]
        [(⟨1, 2⟩, ⟨3, 4⟩)] [] []).1 SERVER_VAL = none ∧
      alookup (accept_handle
        [AcceptEv.conn 5 (some ⟨1, 2⟩) (some 6) true true]
        [(⟨1, 2⟩, ⟨3, 4⟩)] [] []).1 NOTIFY_VAL = none ∧
      alookup (accept_handle
        [AcceptEv.conn 5 (some ⟨1, 2⟩) (some 6) true true]
        [(⟨1, 2⟩, ⟨3, 4⟩)] [] []).2 SERVER_VAL = none ∧
      alookup (accept_handle
        [AcceptEv.conn 5 (some ⟨1, 2⟩) (some 6) true true]
        [(⟨1, 2⟩, ⟨3, 4⟩)] [] []).2 NOTIFY_VAL = none) :=
  ⟨rfl, rfl, rfl, rfl,
    reserved_fd_safety [AcceptEv.conn 5 (some ⟨1, 2⟩) (some 6) true true]
      [(⟨1, 2⟩, ⟨3, 4⟩)] [] [] rfl rfl rfl rfl⟩

theorem accept_handle_preserves_isSome : ∀ (evs : List AcceptEv) (nm : NatMap)
    (tm : TcpMap) (mp : Mapping) (k : Nat),
    (alookup tm k).isSome = true → (alookup mp k).isSome = true →
    (alookup (accept_handle evs nm tm mp).1 k).isSome = true ∧
    (alookup (accept_handle evs nm tm mp).2 k).isSome = true := by
  intro evs
  induction evs with
  | nil =>
    intro nm tm mp k h0 h1
    exact ⟨h0, h1⟩
  | cons ev evs ih =>
    intro nm tm mp k h0 h1
    cases ev with
    | aerr kk =>
      by_cases hk : kk = EKind.wouldBlock
      · simp only [accept_handle, hk, ite_true]
        exact ⟨h0, h1⟩
      · simp only [accept_handle, hk, ite_false]
        exact ih nm tm mp k h0 h1
    | conn srcFd addrOpt connRes r1 r2 =>
      simp only [accept_handle]
      by_cases hs : srcFd = SERVER_VAL ∨ srcFd = NOTIFY_VAL
      · rw [if_pos hs]
        exact ih nm tm mp k h0 h1
      · rw [if_neg hs]
        cases addrOpt with
        | none => exact ih nm tm mp k h0 h1
        | some addr =>
          rcases hnm : alookup nm addr with _ | da
          · simp only [hnm]
            exact ih nm tm mp k h0 h1
          · simp only [hnm]
            cases connRes with
            | none => exact ih nm tm mp k h0 h1
            | some destFd =>
              dsimp only
              by_cases hd : destFd = SERVER_VAL ∨ destFd = NOTIFY_VAL
              · rw [if_pos hd]
                exact ih nm tm mp k h0 h1
              · rw [if_neg hd]
                by_cases hr1 : r1 = false
                · rw [if_pos hr1]
                  exact ih nm tm mp k h0 h1
                · rw [if_neg hr1]
                  by_cases hr2 : r2 = false
                  · rw [if_pos hr2]
                    exact ih nm tm mp k h0 h1
                  · rw [if_neg hr2]
                    exact ih nm _ _ k
                      (isSome_alookup_ainsert tm srcFd k _ h0)
                      (isSome_alookup_ainsert mp destFd k _ h1)

theorem flow_event_go_removal (index : Nat) (v : ProxyValue) (srcIndex : Nat)
    (rd wr rc wc : Bool) (r1 : List ReadEv) (w2 w1 : List WriteEv) (r2 : List ReadEv)
    (tcpMap : TcpMap) (mapping : Mapping) :
    ((flow_event_go index v srcIndex rd wr rc wc r1 w2 w1 r2 tcpMap mapping).closed = true →
      alookup (flow_event_go index v srcIndex rd wr rc wc r1 w2 w1 r2 tcpMap mapping).tcpMap
          srcIndex = none ∧
      alookup (flow_event_go index v srcIndex rd wr rc wc r1 w2 w1 r2 tcpMap mapping).mapping
          v.src_fd = none ∧
      alookup (flow_event_go index v srcIndex rd wr rc wc r1 w2 w1 r2 tcpMap mapping).mapping
          v.dest_fd = none) ∧
    ((flow_event_go index v srcIndex rd wr rc wc r1 w2 w1 r2 tcpMap mapping).closed = false →
      (alookup (flow_event_go index v srcIndex rd wr rc wc r1 w2 w1 r2 tcpMap mapping).tcpMap
          srcIndex).isSome = true) := by
  by_cases hdir : index = v.src_fd
  · rcases hio : flow_io rd wr rc wc r1 w2 w1 r2 v.src_buf v.dest_buf v.src_state v.dest_state
      with ⟨b1, b2, s1, s2⟩
    simp only [flow_event_go, if_pos hdir, hio]
    cases s1 with
    | none => simp [alookup_ainsert_self]
    | some a =>
      cases s2 with
      | none => simp [alookup_ainsert_self]
      | some b =>
        dsimp only
        by_cases hcc : close_check a b b1.isEmpty b2.isEmpty
        · rw [if_pos hcc]
          simp only [close, alookup_ainsert_self]
          constructor
          · intro _
            refine ⟨?_, ?_, ?_⟩
            · simp [alookup_aremove]
            · by_cases hsd : v.src_fd = v.dest_fd <;> simp [alookup_aremove, hsd]
            · simp [alookup_aremove]
          · intro hcl
            exact absurd hcl (by simp)
        · rw [if_neg hcc]
          simp [alookup_ainsert_self]
  · rcases hio : flow_io rd wr rc wc r1 w2 w1 r2 v.dest_buf v.src_buf v.dest_state v.src_state
      with ⟨b1, b2, s1, s2⟩
    simp only [flow_event_go, if_neg hdir, hio]
    cases s1 with
    | none => simp [alookup_ainsert_self]
    | some a =>
      cases s2 with
      | none => simp [alookup_ainsert_self]
      | some b =>
        dsimp only
        by_cases hcc : close_check a b b1.isEmpty b2.isEmpty
        · rw [if_pos hcc]
          simp only [close, alookup_ainsert_self]
          constructor
          · intro _
            refine ⟨?_, ?_, ?_⟩
            · simp [alookup_aremove]
            · by_cases hsd : v.src_fd = v.dest_fd <;> simp [alookup_aremove, hsd]
            · simp [alookup_aremove]
          · intro hcl
            exact absurd hcl (by simp)
        · rw [if_neg hcc]
          simp [alookup_ainsert_self]

/-- C8: map entries are removed iff the flow terminates: when the event
token owns a flow record, a flow event removes the primary-map entry
and both secondary-mapping fds exactly when the close condition fires
(`close` runs) and keeps the primary entry otherwise; and the accept
loop never removes an entry of either map. -/
theorem flow_entry_removal_iff_close (index : Nat)
    (rd wr rc wc : Bool)
    (r1 : List ReadEv) (w2 w1 : List WriteEv) (r2 : List ReadEv)
    (tcpMap : TcpMap) (mapping : Mapping) (v : ProxyValue)
    (evs : List AcceptEv) (nm : NatMap) (tm : TcpMap) (mp : Mapping) (k : Nat)
    (hv : alookup tcpMap index = some v)
    (htm : (alookup tm k).isSome = true) (hmp : (alookup mp k).isSome = true) :
    (((flow_event index rd wr rc wc r1 w2 w1 r2 tcpMap mapping).closed = true →
        alookup (flow_event index rd wr rc wc r1 w2 w1 r2 tcpMap mapping).tcpMap
            index = none ∧
        alookup (flow_event index rd wr rc wc r1 w2 w1 r2 tcpMap mapping).mapping
            v.src_fd = none ∧
        alookup (flow_event index rd wr rc wc r1 w2 w1 r2 tcpMap mapping).mapping
            v.dest_fd = none) ∧
      ((flow_event index rd wr rc wc r1 w2 w1 r2 tcpMap mapping).closed = false →
        (alookup (flow_event index rd wr rc wc r1 w2 w1 r2 tcpMap mapping).tcpMap
            index).isSome = true)) ∧
    ((alookup (accept_handle evs nm tm mp).1 k).isSome = true ∧
      (alookup (accept_handle evs nm tm mp).2 k).isSome = true) := by
  constructor
  · have h := flow_event_go_removal index v index rd wr rc wc r1 w2 w1 r2 tcpMap mapping
    simp only [flow_event, hv]
    exact h
  · exact accept_handle_preserves_isSome evs nm tm mp k htm hmp

theorem flow_entry_removal_iff_close_witness :
    alookup [((5 : Nat), ProxyValue.new 5 6)] 5 = some (ProxyValue.new 5 6) ∧
    (alookup [((3 : Nat), ProxyValue.new 3 7)] 3).isSome = true ∧
    (alookup [((3 : Nat), (7 : Nat))] 3).isSome = true ∧
    ((((flow_event 5 false false false false [] [] [] []
          [(5, ProxyValue.new 5 6)] []).closed = true →
        alookup (flow_event 5 false false false false [] [] [] []
            [(5, ProxyValue.new 5 6)] []).tcpMap 5 = none ∧
        alookup (flow_event 5 false false false false [] [] [] []
            [(5, ProxyValue.new 5 6)] []).mapping (ProxyValue.new 5 6).src_fd = none ∧
        alookup (flow_event 5 false false false false [] [] [] []
            [(5, ProxyValue.new 5 6)] []).mapping (ProxyValue.new 5 6).dest_fd = none) ∧
      ((flow_event 5 false false false false [] [] [] []
          [(5, ProxyValue.new 5 6)] []).closed = false →
        (alookup (flow_event 5 false false false false [] [] [] []
            [(5, ProxyValue.new 5 6)] []).tcpMap 5).isSome = true)) ∧
    ((alookup (accept_handle [] [] [(3, ProxyValue.new 3 7)] [(3, 7)]).1 3).isSome = true ∧
      (alookup (accept_handle [] [] [(3, ProxyValue.new 3 7)] [(3, 7)]).2 3).isSome = true)) :=
  ⟨by decide, by decide, by decide,
    flow_entry_removal_iff_close 5 false false false false [] [] [] []
      [(5, ProxyValue.new 5 6)] [] (ProxyValue.new 5 6)
      [] [] [(3, ProxyValue.new 3 7)] [(3, 7)] 3 (by decide) (by decide) (by decide)⟩
